import Mathlib

/-!
Verification of the VR training content model of this repository.

Part I embeds the Unity runtime (Assets/Scripts/TrainingDataModels.cs and
Assets/Scripts/StepManager.cs): the deserialized training document and the
step navigation / branching logic.

Part II embeds the CMS authoring layer (Frontend_CMS pages and the API
client): publish validation, module creation, step patching, neighbor
navigation, and the step-ordering operations.  Backend (Django) behavior
that is not part of the checked-in sources is modelled from the spec and
marked as such in the doc comments.
-/

namespace UnityRuntime

/-- Mirror of QuestionChoiceData (TrainingDataModels.cs).  The C# field
goToStepId is a non-nullable int; an unset target deserializes to 0. -/
structure QuestionChoiceData where
  label : String
  goToStepId : Int
deriving DecidableEq

/-- Mirror of StepMediaData (TrainingDataModels.cs). -/
structure StepMediaData where
  type : String
  path : String
deriving DecidableEq

/-- Mirror of SpawnData (TrainingDataModels.cs).  C# float[] fields may be
null, modelled as Option; float values are modelled as rationals (the
accessors only branch on null-ness, length and sign, never on rounding). -/
structure SpawnData where
  position : Option (List ℚ)
  rotation : Option (List ℚ)
  scale : ℚ
deriving DecidableEq

/-- SpawnData.Position: the guarded accessor.  Vector3.zero is (0,0,0). -/
def SpawnData.Position (d : SpawnData) : ℚ × ℚ × ℚ :=
  match d.position with
  | some p => if p.length = 3 then (p.getD 0 0, p.getD 1 0, p.getD 2 0) else (0, 0, 0)
  | none => (0, 0, 0)

/-- SpawnData.Rotation: the guarded accessor, represented by the Euler-angle
triple handed to Quaternion.Euler; Quaternion.identity is Euler (0,0,0). -/
def SpawnData.Rotation (d : SpawnData) : ℚ × ℚ × ℚ :=
  match d.rotation with
  | some r => if r.length = 3 then (r.getD 0 0, r.getD 1 0, r.getD 2 0) else (0, 0, 0)
  | none => (0, 0, 0)

/-- SpawnData.Scale: scale when strictly positive, else 1. -/
def SpawnData.Scale (d : SpawnData) : ℚ :=
  if 0 < d.scale then d.scale else 1

/-- Mirror of StepModelData (TrainingDataModels.cs). -/
structure StepModelData where
  path : String
  animation : String
  animationLoop : Bool
  spawn : Option SpawnData
deriving DecidableEq

/-- Mirror of StepInteractionData (TrainingDataModels.cs). -/
structure StepInteractionData where
  requiredAction : String
  inputMethod : String
  target : String
  hand : String
  attemptsAllowed : Int
deriving DecidableEq

/-- Mirror of CompletionCriteria (TrainingDataModels.cs). -/
structure CompletionCriteria where
  type : String
  value : String
deriving DecidableEq

/-- Mirror of TrainingStepData (TrainingDataModels.cs).  Reference-typed
fields that the runtime null-checks are Options. -/
structure TrainingStepData where
  stepId : Int
  title : String
  description : String
  instructionType : String
  media : Option StepMediaData
  models : List StepModelData
  interactions : Option StepInteractionData
  completionCriteria : Option CompletionCriteria
  choices : Option (List QuestionChoiceData)
deriving DecidableEq

/-- Mirror of TrainingTaskData (TrainingDataModels.cs). -/
structure TrainingTaskData where
  taskId : Int
  taskTitle : String
  steps : List TrainingStepData
deriving DecidableEq

/-- Mirror of TrainingModuleData (TrainingDataModels.cs). -/
structure TrainingModuleData where
  moduleId : String
  title : String
  version : String
  mode : String
  estimatedDurationMin : Int
  language : String
  tasks : List TrainingTaskData
deriving DecidableEq

/-- The nested search of StepManager.JumpToStepById: first (task index,
step index) pair, in document order, whose step carries the given stepId. -/
def findStepById : List TrainingTaskData → Int → Option (Nat × Nat)
  | [], _ => none
  | t :: ts, i =>
    match t.steps.findIdx? (fun st => st.stepId = i) with
    | some s => some (0, s)
    | none => (findStepById ts i).map (fun p => (p.1 + 1, p.2))

/-- StepManager.JumpToStepById: move to the first step with the given id;
when no step matches, log a warning and stay on the current position. -/
def JumpToStepById (m : TrainingModuleData) (cur : Nat × Nat) (i : Int) : Nat × Nat :=
  (findStepById m.tasks i).getD cur

/-- ShowCurrentStep wires every question-choice button to
JumpToStepById(choice.goToStepId); resolving a choice is exactly that call. -/
def resolveChoice (m : TrainingModuleData) (cur : Nat × Nat) (c : QuestionChoiceData) :
    Nat × Nat :=
  JumpToStepById m cur c.goToStepId

/-- StepManager.GoNext: advance within the task, else to the next task's
first step, else stay (all tasks completed). -/
def GoNext (m : TrainingModuleData) (cur : Nat × Nat) : Nat × Nat :=
  let task := m.tasks.getD cur.1 ⟨0, "", []⟩
  if cur.2 + 1 < task.steps.length then (cur.1, cur.2 + 1)
  else if cur.1 + 1 < m.tasks.length then (cur.1 + 1, 0)
  else cur

/-- The step stored at a (task index, step index) position, when valid. -/
def stepAt (m : TrainingModuleData) (p : Nat × Nat) : Option TrainingStepData :=
  match m.tasks[p.1]? with
  | some t => t.steps[p.2]?
  | none => none

theorem findStepById_eq_none (tasks : List TrainingTaskData) (i : Int)
    (h : ∀ t ∈ tasks, ∀ st ∈ t.steps, st.stepId ≠ i) :
    findStepById tasks i = none := by
  induction tasks with
  | nil => rfl
  | cons t ts ih =>
    have hfind : t.steps.findIdx? (fun st => st.stepId = i) = none := by
      rw [List.findIdx?_eq_none_iff]
      intro st hst
      simpa using h t (List.mem_cons_self t ts) st hst
    have hrest : findStepById ts i = none :=
      ih (fun t ht st hst => h t (List.mem_cons_of_mem _ ht) st hst)
    simp [findStepById, hfind, hrest]

theorem findStepById_some (tasks : List TrainingTaskData) (i : Int)
    (p : Nat × Nat) (h : findStepById tasks i = some p) :
    ∃ t, tasks[p.1]? = some t ∧ ∃ st, t.steps[p.2]? = some st ∧ st.stepId = i := by
  induction tasks generalizing p with
  | nil => simp [findStepById] at h
  | cons t ts ih =>
    unfold findStepById at h
    cases hfind : t.steps.findIdx? (fun st => st.stepId = i) with
    | some s =>
      rw [hfind] at h
      obtain rfl : p = (0, s) := by simpa using h.symm
      obtain ⟨hlt, hprop, -⟩ := List.findIdx?_eq_some_iff_getElem.mp hfind
      exact ⟨t, by simp, t.steps[s], List.getElem?_eq_getElem hlt, by simpa using hprop⟩
    | none =>
      rw [hfind] at h
      cases hrest : findStepById ts i with
      | none => rw [hrest] at h; simp at h
      | some q =>
        rw [hrest] at h
        obtain rfl : p = (q.1 + 1, q.2) := by simpa using h.symm
        obtain ⟨t2, ht2, st, hst, hid⟩ := ih q hrest
        exact ⟨t2, by simpa using ht2, st, hst, hid⟩

theorem findStepById_isSome (tasks : List TrainingTaskData) (i : Int)
    (t : TrainingTaskData) (ht : t ∈ tasks) (st : TrainingStepData)
    (hst : st ∈ t.steps) (hid : st.stepId = i) :
    (findStepById tasks i).isSome := by
  induction tasks with
  | nil => simp at ht
  | cons t0 ts ih =>
    unfold findStepById
    cases hfind : t0.steps.findIdx? (fun s => s.stepId = i) with
    | some s => simp
    | none =>
      rcases List.mem_cons.mp ht with rfl | hts
      · exfalso
        have := List.findIdx?_eq_none_iff.mp hfind st hst
        simp [hid] at this
      · have := ih hts
        cases hrest : findStepById ts i with
        | none => rw [hrest] at this; simp at this
        | some q => simp [hrest]

/-- A question step whose single choice has an unset target (the C# int
default 0, the deserialization of a null go_to_step), followed by a second
step in document order. -/
def exStepQ : TrainingStepData :=
  { stepId := 1, title := "Q", description := "", instructionType := "question",
    media := none, models := [], interactions := none, completionCriteria := none,
    choices := some [{ label := "No", goToStepId := 0 }] }

/-- The step after the question step. -/
def exStepNext : TrainingStepData :=
  { stepId := 2, title := "S2", description := "", instructionType := "info",
    media := none, models := [], interactions := none, completionCriteria := none,
    choices := none }

/-- One-task module exercising the unset-choice branch. -/
def exModule : TrainingModuleData :=
  { moduleId := "m1", title := "M", version := "1", mode := "VR",
    estimatedDurationMin := 0, language := "en",
    tasks := [{ taskId := 1, taskTitle := "T", steps := [exStepQ, exStepNext] }] }

/-- C1: resolving the question step's choice whose go_to_step is unset
(goToStepId 0) leaves the runtime on the question step (0,0); it does not
advance to the next step in flattened document order, which is (0,1). -/
theorem resolveChoice_unset_is_noop :
    ({ label := "No", goToStepId := 0 } : QuestionChoiceData) ∈ (exStepQ.choices.getD [])
    ∧ resolveChoice exModule (0, 0) { label := "No", goToStepId := 0 } = (0, 0)
    ∧ GoNext exModule (0, 0) = (0, 1) := by
  refine ⟨by decide, by decide, by decide⟩

/-- C9: JumpToStepById with a stepId matching no step in the module leaves
the current position unchanged (a warning-logged no-op); when a matching
step exists, the resulting position holds a step with exactly that id. -/
theorem JumpToStepById_spec (m : TrainingModuleData) (cur : Nat × Nat) (i : Int) :
    ((∀ t ∈ m.tasks, ∀ st ∈ t.steps, st.stepId ≠ i) → JumpToStepById m cur i = cur)
    ∧ ((∃ t ∈ m.tasks, ∃ st ∈ t.steps, st.stepId = i) →
        ∃ st, stepAt m (JumpToStepById m cur i) = some st ∧ st.stepId = i) := by
  constructor
  · intro h
    simp [JumpToStepById, findStepById_eq_none m.tasks i h]
  · rintro ⟨t, ht, st, hst, hid⟩
    have hs := findStepById_isSome m.tasks i t ht st hst hid
    cases hp : findStepById m.tasks i with
    | none => rw [hp] at hs; simp at hs
    | some p =>
      obtain ⟨t2, ht2, st2, hst2, hid2⟩ := findStepById_some m.tasks i p hp
      refine ⟨st2, ?_, hid2⟩
      simp [JumpToStepById, hp, stepAt, ht2, hst2]

/-- Witness for JumpToStepById_spec at a concrete module and id. -/
theorem JumpToStepById_spec_witness :
    JumpToStepById exModule (0, 0) 7 = (0, 0)
    ∧ ∃ st, stepAt exModule (JumpToStepById exModule (0, 1) 1) = some st ∧ st.stepId = 1 := by
  exact ⟨(JumpToStepById_spec exModule (0, 0) 7).1 (by decide),
    (JumpToStepById_spec exModule (0, 1) 1).2 (by decide)⟩

/-- C10: the SpawnData accessors are total and safe: Scale is strictly
positive (the stored value when positive, else 1), and Position/Rotation
collapse to the zero vector / identity rotation (Euler (0,0,0)) whenever the
backing array is null or not of length 3, so malformed JSON never produces a
non-positive scale or an out-of-bounds index. -/
theorem spawnData_accessors_safe (d : SpawnData) :
    0 < d.Scale
    ∧ (0 < d.scale → d.Scale = d.scale)
    ∧ (¬ 0 < d.scale → d.Scale = 1)
    ∧ (d.position = none → d.Position = (0, 0, 0))
    ∧ (∀ p, d.position = some p → p.length ≠ 3 → d.Position = (0, 0, 0))
    ∧ (d.rotation = none → d.Rotation = (0, 0, 0))
    ∧ (∀ r, d.rotation = some r → r.length ≠ 3 → d.Rotation = (0, 0, 0)) := by
  refine ⟨?_, ?_, ?_, ?_, ?_, ?_, ?_⟩
  · by_cases h : 0 < d.scale <;> simp [SpawnData.Scale, h]
  · intro h; simp [SpawnData.Scale, h]
  · intro h; simp [SpawnData.Scale, h]
  · intro h; simp [SpawnData.Position, h]
  · intro p hp hlen; simp [SpawnData.Position, hp, hlen]
  · intro h; simp [SpawnData.Rotation, h]
  · intro r hr hlen; simp [SpawnData.Rotation, hr, hlen]

/-- Witness for the SpawnData safety theorem at a malformed value: a
two-element position array, a null rotation array and a negative scale. -/
theorem spawnData_accessors_safe_witness :
    0 < (SpawnData.mk (some [1, 2]) none (-5)).Scale
    ∧ (SpawnData.mk (some [1, 2]) none (-5)).Scale = 1
    ∧ (SpawnData.mk (some [1, 2]) none (-5)).Position = (0, 0, 0)
    ∧ (SpawnData.mk (some [1, 2]) none (-5)).Rotation = (0, 0, 0) := by
  refine ⟨(spawnData_accessors_safe _).1,
    (spawnData_accessors_safe _).2.2.1 (by norm_num),
    (spawnData_accessors_safe _).2.2.2.2.1 [1, 2] rfl (by decide),
    (spawnData_accessors_safe _).2.2.2.2.2.1 rfl⟩

end UnityRuntime

namespace CMS

/-- Mirror of StepChoice (Frontend_CMS/src/types/index.ts). -/
structure StepChoice where
  id : Option String := none
  label : String
  go_to_step : Option String
  order_index : Int
deriving DecidableEq

/-- Mirror of Step (Frontend_CMS/src/types/index.ts).  Optional/nullable
TypeScript fields are Options; an absent choices array is the empty list
(every consumer normalizes with step.choices or []).  Numeric fields are
rationals (the authoring layer never does arithmetic on them). -/
structure Step where
  id : String
  module : String := ""
  task : Option String := none
  order_index : Int := 0
  title : String := ""
  description : String := ""
  instruction_type : String := "info"
  media_type : Option String := none
  media_asset : Option String := none
  media_asset_url : Option String := none
  media_asset_filename : Option String := none
  model_asset : Option String := none
  model_asset_url : Option String := none
  model_asset_filename : Option String := none
  model_asset_metadata : Option String := none
  model_animation : String := ""
  model_position_x : ℚ := 0
  model_position_y : ℚ := 0
  model_position_z : ℚ := 0
  model_rotation_x : ℚ := 0
  model_rotation_y : ℚ := 0
  model_rotation_z : ℚ := 0
  model_scale : ℚ := 0
  model_animation_loop : Bool := false
  interaction_required_action : String := ""
  interaction_input_method : String := ""
  interaction_target : String := ""
  interaction_hand : String := ""
  interaction_attempts_allowed : Int := 0
  completion_type : String := ""
  completion_value : String := ""
  choices : List StepChoice := []
  created_at : String := ""
  updated_at : String := ""
deriving DecidableEq

/-- Mirror of UpdateStepRequest (Frontend_CMS/src/types/index.ts): every
field optional; for the nullable asset fields an explicit null (some none)
clears the reference while absence (none) leaves it alone. -/
structure UpdateStepRequest where
  title : Option String := none
  description : Option String := none
  instruction_type : Option String := none
  media_type : Option (Option String) := none
  media_asset : Option (Option String) := none
  model_asset : Option (Option String) := none
  model_animation : Option String := none
  model_position_x : Option ℚ := none
  model_position_y : Option ℚ := none
  model_position_z : Option ℚ := none
  model_rotation_x : Option ℚ := none
  model_rotation_y : Option ℚ := none
  model_rotation_z : Option ℚ := none
  model_scale : Option ℚ := none
  model_animation_loop : Option Bool := none
  interaction_required_action : Option String := none
  interaction_input_method : Option String := none
  interaction_target : Option String := none
  interaction_hand : Option String := none
  interaction_attempts_allowed : Option Int := none
  completion_type : Option String := none
  completion_value : Option String := none
  choices : Option (List StepChoice) := none
deriving DecidableEq

/-- The merge-patch applied to a step: the object-spread semantics of
configureStep.tsx handleUpdate (spread of prev then patch; the backend PATCH
per the spec merges the same way).  Fields absent from the request keep
their prior value; a present choices list replaces the old list wholesale. -/
def applyPatch (s : Step) (p : UpdateStepRequest) : Step :=
  { s with
    title := p.title.getD s.title,
    description := p.description.getD s.description,
    instruction_type := p.instruction_type.getD s.instruction_type,
    media_type := p.media_type.getD s.media_type,
    media_asset := p.media_asset.getD s.media_asset,
    model_asset := p.model_asset.getD s.model_asset,
    model_animation := p.model_animation.getD s.model_animation,
    model_position_x := p.model_position_x.getD s.model_position_x,
    model_position_y := p.model_position_y.getD s.model_position_y,
    model_position_z := p.model_position_z.getD s.model_position_z,
    model_rotation_x := p.model_rotation_x.getD s.model_rotation_x,
    model_rotation_y := p.model_rotation_y.getD s.model_rotation_y,
    model_rotation_z := p.model_rotation_z.getD s.model_rotation_z,
    model_scale := p.model_scale.getD s.model_scale,
    model_animation_loop := p.model_animation_loop.getD s.model_animation_loop,
    interaction_required_action :=
      p.interaction_required_action.getD s.interaction_required_action,
    interaction_input_method := p.interaction_input_method.getD s.interaction_input_method,
    interaction_target := p.interaction_target.getD s.interaction_target,
    interaction_hand := p.interaction_hand.getD s.interaction_hand,
    interaction_attempts_allowed :=
      p.interaction_attempts_allowed.getD s.interaction_attempts_allowed,
    completion_type := p.completion_type.getD s.completion_type,
    completion_value := p.completion_value.getD s.completion_value,
    choices := p.choices.getD s.choices }

/-- Mirror of Task (Frontend_CMS/src/types/index.ts); steps is optional. -/
structure Task where
  id : String
  module : String := ""
  order_index : Int := 0
  title : String := ""
  description : Option String := none
  created_at : String := ""
  updated_at : String := ""
  steps : Option (List Step) := none
deriving DecidableEq

/-- Mirror of Module (Frontend_CMS/src/types/index.ts). -/
structure Module where
  id : String
  module_id : String := ""
  title : String := ""
  description : String := ""
  version : String := ""
  mode : String := "VR"
  estimated_duration_min : Int := 0
  language : String := ""
  icon : String := ""
  thumbnail : Option String := none
  tags : List String := []
  status : String := "draft"
  created_at : String := ""
  updated_at : String := ""
  tasks : Option (List Task) := none
deriving DecidableEq

/-- Outcome of createmodule.tsx handlePublish. -/
inductive PublishOutcome where
  | noTasks
  | emptyTasks (titles : List String)
  | publish
deriving DecidableEq

/-- A task offends publish validation when its steps array is absent or
empty (the JS test not t.steps or t.steps.length equal 0). -/
def taskHasNoSteps (t : Task) : Bool := (t.steps.getD []).length = 0

/-- createmodule.tsx handlePublish: refuse with an alert when there is no
task; refuse naming the offending task titles when some task has no steps;
otherwise issue the publish request. -/
def handlePublish (tasks : List Task) : PublishOutcome :=
  if tasks.length = 0 then .noTasks
  else
    let emptyTasks := tasks.filter taskHasNoSteps
    if 0 < emptyTasks.length then .emptyTasks (emptyTasks.map (fun t => t.title))
    else .publish

/-- JS String.toLowerCase, modelled character by character. -/
def strLower (s : String) : String := String.mk (s.data.map Char.toLower)

/-- JS String.trim: strip leading and trailing whitespace. -/
def strTrim (s : String) : String :=
  String.mk
    (((s.data.dropWhile Char.isWhitespace).reverse.dropWhile Char.isWhitespace).reverse)

/-- Contiguous-substring occurrence on character lists. -/
def listHasInfix (pat : List Char) : List Char → Bool
  | [] => pat.isEmpty
  | c :: rest => pat.isPrefixOf (c :: rest) || listHasInfix pat rest

/-- JS String.includes, modelled on the character lists. -/
def strContains (s pat : String) : Bool := listHasInfix pat.data s.data

/-- indexdevelop.tsx handleCreateModule error sniffing: the backend message,
lower-cased, mentions unique, exists or duplicate. -/
def msgIndicatesDuplicate (msg : String) : Bool :=
  strContains (strLower msg) "unique" || strContains (strLower msg) "exists"
    || strContains (strLower msg) "duplicate"

/-- The duplicate-name error string used by both the pre-check and the
backend-violation path of handleCreateModule. -/
def duplicateNameError : String := "A module with that name already exists"

/-- indexdevelop.tsx pre-check: some loaded (non-deleted) module matches the
requested name case-insensitively after trimming. -/
def isDuplicateTitle (modules : List Module) (name : String) : Bool :=
  modules.any (fun m => strLower (strTrim m.title) == strLower (strTrim name))

/-- What the backend returns when a create request is issued. -/
inductive BackendCreate where
  | ok (m : Module)
  | err (msg : String)

/-- Outcome of indexdevelop.tsx handleCreateModule. -/
inductive CreateOutcome where
  | nameError (msg : String)
  | created (m : Module)
  | alertError (msg : String)

/-- Result of handleCreateModule together with whether the create request
was issued to the backend at all. -/
structure CreateResult where
  outcome : CreateOutcome
  requestIssued : Bool

/-- indexdevelop.tsx handleCreateModule: client-side case-insensitive
duplicate check first (no request issued on a hit); otherwise create, and
translate a backend uniqueness violation into the same duplicate error. -/
def handleCreateModule (modules : List Module) (name : String)
    (backend : BackendCreate) : CreateResult :=
  if isDuplicateTitle modules name then ⟨.nameError duplicateNameError, false⟩
  else
    match backend with
    | .ok m => ⟨.created m, true⟩
    | .err msg =>
      if msgIndicatesDuplicate msg then ⟨.nameError duplicateNameError, true⟩
      else ⟨.alertError msg, true⟩

/-- configureStep.tsx goToNeighbor: move to the adjacent step of the
current task; at a task boundary cross into the next task's first step or
the previous task's last step, but only when that adjacent task exists and
has steps; otherwise do nothing (none). -/
def goToNeighbor (tasks : List Task) (tIdx sIdx : Nat) (delta : Int) :
    Option (Nat × Nat) :=
  match tasks[tIdx]? with
  | none => none
  | some cur =>
    let taskSteps := cur.steps.getD []
    if taskSteps.length = 0 then none
    else
      let newIndex : Int := sIdx + delta
      if 0 ≤ newIndex ∧ newIndex < taskSteps.length then some (tIdx, newIndex.toNat)
      else if 0 < delta ∧ (taskSteps.length : Int) ≤ newIndex then
        match tasks[tIdx + 1]? with
        | some nt => if (nt.steps.getD []).length = 0 then none else some (tIdx + 1, 0)
        | none => none
      else if delta < 0 ∧ newIndex < 0 then
        if tIdx = 0 then none
        else
          match tasks[tIdx - 1]? with
          | some pt =>
            let prevSteps := pt.steps.getD []
            if prevSteps.length = 0 then none
            else some (tIdx - 1, prevSteps.length - 1)
          | none => none
      else none

/-- A step as the ordering engine sees it: identity plus order_index. -/
structure StepRec where
  id : String
  order_index : Int
deriving DecidableEq

/-- Minimum order_index of a sibling list (0 when empty). -/
def minOrder : List StepRec → Int
  | [] => 0
  | [s] => s.order_index
  | s :: rest => min s.order_index (minOrder rest)

/-- Maximum order_index of a sibling list (0 when empty). -/
def maxOrder : List StepRec → Int
  | [] => 0
  | [s] => s.order_index
  | s :: rest => max s.order_index (maxOrder rest)

/-- The order_index values are exactly m, m+1, ... in list order. -/
def denseFrom : Int → List StepRec → Bool
  | _, [] => true
  | m, s :: rest => s.order_index == m && denseFrom (m + 1) rest

/-- Dense ascending with no gaps or duplicates, starting at the head. -/
def isDense : List StepRec → Bool
  | [] => true
  | s :: rest => denseFrom s.order_index (s :: rest)

/-- Reassign order_index values m, m+1, ... down the list, keeping ids and
relative order. -/
def renumberFrom (m : Int) : List StepRec → List StepRec
  | [] => []
  | s :: rest => { s with order_index := m } :: renumberFrom (m + 1) rest

/-- Modelled from the spec: the Django backend's step deletion (the backend
sources are not under src/; Frontend_CMS removeStepFromTask and
ApiClient.deleteStep only issue the DELETE): remove the step, then renumber
the remaining siblings to a dense ascending sequence starting at the
original minimum. -/
def deleteStep (i : String) (steps : List StepRec) : List StepRec :=
  renumberFrom (minOrder steps) (steps.filter (fun s => s.id != i))

/-- Modelled from the spec: the Django backend's step creation ordering
(sources not under src/): the new step is appended with
order_index = max existing sibling order_index + 1. -/
def createStepOrdered (newId : String) (steps : List StepRec) : List StepRec :=
  steps ++ [{ id := newId, order_index := maxOrder steps + 1 }]

/-- One authoring operation on a task's sibling list. -/
inductive StepOp where
  | create (newId : String)
  | del (id : String)

/-- Run a sequence of create/delete operations. -/
def applyStepOps (ops : List StepOp) (steps : List StepRec) : List StepRec :=
  match ops with
  | [] => steps
  | .create i :: rest => applyStepOps rest (createStepOrdered i steps)
  | .del i :: rest => applyStepOps rest (deleteStep i steps)

/-- The JSON body built by ApiClient.createStep (src/lib/api): description
empty, instruction_type info, order_index the argument or 0 (the JS
orderIndex ?? 0); an undefined title is dropped from the body. -/
structure CreateStepBody where
  task : String
  title : Option String
  description : String
  instruction_type : String
  order_index : Int
deriving DecidableEq

/-- ApiClient.createStep request construction. -/
def clientCreateStepBody (taskId : String) (title : Option String)
    (orderIndex : Option Int) : CreateStepBody :=
  { task := taskId, title := title, description := "",
    instruction_type := "info", order_index := orderIndex.getD 0 }

/-- Modelled from the spec: the Django backend's step creation (sources not
under src/): append semantics order_index = max sibling order_index + 1,
title/description/instruction_type from the request body (title defaulting
to empty), every other field defaulting to empty/false/zero. -/
def backendCreateStep (siblings : List StepRec) (newId : String)
    (body : CreateStepBody) : Step :=
  { id := newId, module := "", task := some body.task,
    order_index := maxOrder siblings + 1,
    title := body.title.getD "", description := body.description,
    instruction_type := body.instruction_type,
    media_type := none, media_asset := none, media_asset_url := none,
    media_asset_filename := none, model_asset := none, model_asset_url := none,
    model_asset_filename := none, model_asset_metadata := none,
    model_animation := "", model_position_x := 0, model_position_y := 0,
    model_position_z := 0, model_rotation_x := 0, model_rotation_y := 0,
    model_rotation_z := 0, model_scale := 0, model_animation_loop := false,
    interaction_required_action := "", interaction_input_method := "",
    interaction_target := "", interaction_hand := "",
    interaction_attempts_allowed := 0, completion_type := "",
    completion_value := "", choices := [], created_at := "", updated_at := "" }

/-- A freshly created step as addStepToTask produces it (no title, no
explicit order) on a task with no siblings yet. -/
def createdStepDefault : Step :=
  backendCreateStep [] "new-step" (clientCreateStepBody "task-1" none none)

/-- The step-editor operations of StepConfiguration that touch the
question/choices invariant: patching instruction_type, and adding or
removing a choice.  The choices editor is rendered only while
instruction_type is question, so choice edits on other steps do not occur. -/
inductive AuthOp where
  | patchType (t : String)
  | addChoice (c : StepChoice)
  | removeChoice (i : Nat)

/-- Apply one StepConfiguration operation through the merge patch. -/
def applyAuthOp (s : Step) : AuthOp → Step
  | .patchType t => applyPatch s { instruction_type := some t }
  | .addChoice c =>
    if s.instruction_type = "question" then
      applyPatch s { choices := some (s.choices ++ [c]) }
    else s
  | .removeChoice i =>
    if s.instruction_type = "question" then
      applyPatch s { choices := some (s.choices.eraseIdx i) }
    else s

/-- Run a sequence of step-editor operations. -/
def applyAuthOps (s : Step) : List AuthOp → Step
  | [] => s
  | op :: rest => applyAuthOps (applyAuthOp s op) rest

/-- The advisory data-model invariant: choices non-empty forces question. -/
def ChoicesInv (s : Step) : Prop := s.choices ≠ [] → s.instruction_type = "question"

/-- An operation sequence never patches instruction_type away from question
while choices are non-empty. -/
def SafeSeq : Step → List AuthOp → Prop
  | _, [] => True
  | s, op :: rest =>
    (match op with
     | .patchType t => t = "question" ∨ s.choices = []
     | _ => True) ∧ SafeSeq (applyAuthOp s op) rest

/-- C2: publish is refused when there is no task, refused with exactly the
offending task titles when some task has no steps, and proceeds precisely
when there is at least one task and every task has at least one step. -/
theorem handlePublish_validation (tasks : List Task) :
    (tasks = [] → handlePublish tasks = .noTasks)
    ∧ ((∃ t ∈ tasks, taskHasNoSteps t = true) → tasks ≠ [] →
        handlePublish tasks =
          .emptyTasks ((tasks.filter taskHasNoSteps).map (fun t => t.title)))
    ∧ (handlePublish tasks = .publish ↔
        tasks ≠ [] ∧ ∀ t ∈ tasks, t.steps.getD [] ≠ []) := by
  refine ⟨?_, ?_, ?_⟩
  · rintro rfl; rfl
  · rintro ⟨t, ht, hempty⟩ hne
    have hlen : tasks.length ≠ 0 := by simpa [List.length_eq_zero] using hne
    have hfil : 0 < (tasks.filter taskHasNoSteps).length :=
      List.length_pos.mpr (List.ne_nil_of_mem (List.mem_filter.mpr ⟨ht, hempty⟩))
    simp [handlePublish, hlen, hfil]
  · constructor
    · intro h
      by_cases hlen : tasks.length = 0
      · simp [handlePublish, hlen] at h
      · refine ⟨by simpa [← List.length_eq_zero] using hlen, ?_⟩
        intro t ht hsteps
        by_cases hfil : 0 < (tasks.filter taskHasNoSteps).length
        · simp [handlePublish, hlen, hfil] at h
        · have hmem : t ∈ tasks.filter taskHasNoSteps :=
            List.mem_filter.mpr ⟨ht, by simp [taskHasNoSteps, hsteps]⟩
          exact hfil (List.length_pos.mpr (List.ne_nil_of_mem hmem))
    · rintro ⟨hne, hall⟩
      have hlen : ¬tasks.length = 0 := by simpa [List.length_eq_zero] using hne
      have hfil : ¬0 < (tasks.filter taskHasNoSteps).length := by
        intro hpos
        obtain ⟨t, htmem⟩ := List.exists_mem_of_length_pos hpos
        obtain ⟨htt, hh⟩ := List.mem_filter.mp htmem
        have : t.steps.getD [] = [] := by
          simpa [taskHasNoSteps, List.length_eq_zero] using hh
        exact hall t htt this
      simp [handlePublish, hlen, hfil]

/-- A nonempty task for the publish witness: Setup holds one step. -/
def pubTaskSetup : Task :=
  { id := "t1", title := "Setup", steps := some [{ id := "s1" }] }

/-- The offending empty task for the publish witness: Cleanup has no step. -/
def pubTaskCleanup : Task := { id := "t2", title := "Cleanup", steps := some [] }

/-- Witness: publish of Setup+Cleanup is refused naming Cleanup; publish of
Setup alone proceeds. -/
theorem handlePublish_validation_witness :
    handlePublish [pubTaskSetup, pubTaskCleanup] = .emptyTasks ["Cleanup"]
    ∧ handlePublish [pubTaskSetup] = .publish := by
  constructor
  · have h := (handlePublish_validation [pubTaskSetup, pubTaskCleanup]).2.1
      ⟨pubTaskCleanup, by decide, by decide⟩ (by decide)
    rw [h]; decide
  · exact (handlePublish_validation [pubTaskSetup]).2.2.mpr ⟨by decide, by decide⟩

/-- C4: a case-insensitive title match among the loaded (non-deleted)
modules yields the duplicate-name error with no create request issued, and
when the pre-check passes but the backend reports a uniqueness violation,
the very same duplicate-name error is produced. -/
theorem handleCreateModule_duplicate (modules : List Module) (name : String)
    (backend : BackendCreate) :
    ((∃ m ∈ modules, strLower (strTrim m.title) = strLower (strTrim name)) →
      handleCreateModule modules name backend =
        ⟨.nameError duplicateNameError, false⟩)
    ∧ (isDuplicateTitle modules name = false → ∀ msg, backend = .err msg →
        msgIndicatesDuplicate msg = true →
        handleCreateModule modules name backend =
          ⟨.nameError duplicateNameError, true⟩)
    ∧ (isDuplicateTitle modules name = true ↔
        ∃ m ∈ modules, strLower (strTrim m.title) = strLower (strTrim name)) := by
  have hiff : isDuplicateTitle modules name = true ↔
      ∃ m ∈ modules, strLower (strTrim m.title) = strLower (strTrim name) := by
    simp [isDuplicateTitle, List.any_eq_true]
  refine ⟨?_, ?_, hiff⟩
  · intro h
    simp [handleCreateModule, hiff.mpr h]
  · intro hfalse msg hb hdup
    subst hb
    simp [handleCreateModule, hfalse, hdup]

/-- An existing module titled Fire Safety for the duplicate witness. -/
def exFireSafety : Module := { id := "m1", title := "Fire Safety" }

/-- Witness: creating FIRE safety (with trailing space) against the list
holding Fire Safety hits the pre-check and issues no request; creating a
fresh name while the backend reports a UNIQUE violation lands on the same
duplicate-name error. -/
theorem handleCreateModule_duplicate_witness :
    handleCreateModule [exFireSafety] "FIRE safety " (.ok exFireSafety) =
      ⟨.nameError duplicateNameError, false⟩
    ∧ handleCreateModule [exFireSafety] "Other" (.err "UNIQUE constraint failed") =
      ⟨.nameError duplicateNameError, true⟩ := by
  constructor
  · exact (handleCreateModule_duplicate [exFireSafety] "FIRE safety "
      (.ok exFireSafety)).1 ⟨exFireSafety, by decide, by decide⟩
  · exact (handleCreateModule_duplicate [exFireSafety] "Other"
      (.err "UNIQUE constraint failed")).2.1 (by decide)
      "UNIQUE constraint failed" rfl (by decide)

/-- C5: the step patch is a merge: every field absent from the request
keeps its prior value, every field present is set to exactly the provided
value, identity and ordering are untouched, and a provided choices list
replaces the stored list wholesale. -/
theorem applyPatch_merge (s : Step) (p : UpdateStepRequest) :
    (applyPatch s p).id = s.id
    ∧ (applyPatch s p).module = s.module
    ∧ (applyPatch s p).task = s.task
    ∧ (applyPatch s p).order_index = s.order_index
    ∧ (applyPatch s p).created_at = s.created_at
    ∧ (p.title = none → (applyPatch s p).title = s.title)
    ∧ (∀ v, p.title = some v → (applyPatch s p).title = v)
    ∧ (p.description = none → (applyPatch s p).description = s.description)
    ∧ (∀ v, p.description = some v → (applyPatch s p).description = v)
    ∧ (p.instruction_type = none →
        (applyPatch s p).instruction_type = s.instruction_type)
    ∧ (∀ v, p.instruction_type = some v → (applyPatch s p).instruction_type = v)
    ∧ (p.media_type = none → (applyPatch s p).media_type = s.media_type)
    ∧ (∀ v, p.media_type = some v → (applyPatch s p).media_type = v)
    ∧ (p.media_asset = none → (applyPatch s p).media_asset = s.media_asset)
    ∧ (∀ v, p.media_asset = some v → (applyPatch s p).media_asset = v)
    ∧ (p.model_asset = none → (applyPatch s p).model_asset = s.model_asset)
    ∧ (∀ v, p.model_asset = some v → (applyPatch s p).model_asset = v)
    ∧ (p.model_animation = none → (applyPatch s p).model_animation = s.model_animation)
    ∧ (∀ v, p.model_animation = some v → (applyPatch s p).model_animation = v)
    ∧ (p.model_position_x = none →
        (applyPatch s p).model_position_x = s.model_position_x)
    ∧ (∀ v, p.model_position_x = some v → (applyPatch s p).model_position_x = v)
    ∧ (p.model_position_y = none →
        (applyPatch s p).model_position_y = s.model_position_y)
    ∧ (∀ v, p.model_position_y = some v → (applyPatch s p).model_position_y = v)
    ∧ (p.model_position_z = none →
        (applyPatch s p).model_position_z = s.model_position_z)
    ∧ (∀ v, p.model_position_z = some v → (applyPatch s p).model_position_z = v)
    ∧ (p.model_rotation_x = none →
        (applyPatch s p).model_rotation_x = s.model_rotation_x)
    ∧ (∀ v, p.model_rotation_x = some v → (applyPatch s p).model_rotation_x = v)
    ∧ (p.model_rotation_y = none →
        (applyPatch s p).model_rotation_y = s.model_rotation_y)
    ∧ (∀ v, p.model_rotation_y = some v → (applyPatch s p).model_rotation_y = v)
    ∧ (p.model_rotation_z = none →
        (applyPatch s p).model_rotation_z = s.model_rotation_z)
    ∧ (∀ v, p.model_rotation_z = some v → (applyPatch s p).model_rotation_z = v)
    ∧ (p.model_scale = none → (applyPatch s p).model_scale = s.model_scale)
    ∧ (∀ v, p.model_scale = some v → (applyPatch s p).model_scale = v)
    ∧ (p.model_animation_loop = none →
        (applyPatch s p).model_animation_loop = s.model_animation_loop)
    ∧ (∀ v, p.model_animation_loop = some v →
        (applyPatch s p).model_animation_loop = v)
    ∧ (p.interaction_required_action = none →
        (applyPatch s p).interaction_required_action = s.interaction_required_action)
    ∧ (∀ v, p.interaction_required_action = some v →
        (applyPatch s p).interaction_required_action = v)
    ∧ (p.interaction_input_method = none →
        (applyPatch s p).interaction_input_method = s.interaction_input_method)
    ∧ (∀ v, p.interaction_input_method = some v →
        (applyPatch s p).interaction_input_method = v)
    ∧ (p.interaction_target = none →
        (applyPatch s p).interaction_target = s.interaction_target)
    ∧ (∀ v, p.interaction_target = some v → (applyPatch s p).interaction_target = v)
    ∧ (p.interaction_hand = none →
        (applyPatch s p).interaction_hand = s.interaction_hand)
    ∧ (∀ v, p.interaction_hand = some v → (applyPatch s p).interaction_hand = v)
    ∧ (p.interaction_attempts_allowed = none →
        (applyPatch s p).interaction_attempts_allowed = s.interaction_attempts_allowed)
    ∧ (∀ v, p.interaction_attempts_allowed = some v →
        (applyPatch s p).interaction_attempts_allowed = v)
    ∧ (p.completion_type = none → (applyPatch s p).completion_type = s.completion_type)
    ∧ (∀ v, p.completion_type = some v → (applyPatch s p).completion_type = v)
    ∧ (p.completion_value = none →
        (applyPatch s p).completion_value = s.completion_value)
    ∧ (∀ v, p.completion_value = some v → (applyPatch s p).completion_value = v)
    ∧ (p.choices = none → (applyPatch s p).choices = s.choices)
    ∧ (∀ cs, p.choices = some cs → (applyPatch s p).choices = cs) := by
  repeat' constructor
  all_goals intros
  all_goals simp [applyPatch, *]

/-- A populated step used by the patch witness. -/
def patchedStep : Step :=
  { id := "s9", title := "Old title", description := "Old description",
    instruction_type := "question",
    choices := [{ label := "A", go_to_step := none, order_index := 0 }] }

/-- A patch touching only description and choices. -/
def exPatch : UpdateStepRequest :=
  { description := some "New description",
    choices := some [{ label := "Yes", go_to_step := some "s7", order_index := 0 },
                     { label := "No", go_to_step := none, order_index := 1 }] }

/-- Witness: patching description and choices leaves title and identity
alone, sets the description, and replaces the choices list wholesale. -/
theorem applyPatch_merge_witness :
    (applyPatch patchedStep exPatch).id = patchedStep.id
    ∧ (applyPatch patchedStep exPatch).title = patchedStep.title
    ∧ (applyPatch patchedStep exPatch).description = "New description"
    ∧ (applyPatch patchedStep exPatch).choices =
        [{ label := "Yes", go_to_step := some "s7", order_index := 0 },
         { label := "No", go_to_step := none, order_index := 1 }] := by
  obtain ⟨hid, hmod, htask, hord, hcr, hTitleN, hTitleS, hDescN, hDescS, hITN, hITS,
    hMTN, hMTS, hMAN, hMAS, hMoAN, hMoAS, hManN, hManS, hpxN, hpxS, hpyN, hpyS,
    hpzN, hpzS, hrxN, hrxS, hryN, hryS, hrzN, hrzS, hscN, hscS, hlpN, hlpS,
    hraN, hraS, himN, himS, htgN, htgS, hhdN, hhdS, haaN, haaS, hctN, hctS,
    hcvN, hcvS, hchN, hchS⟩ := applyPatch_merge patchedStep exPatch
  exact ⟨hid, hTitleN rfl, hDescS _ rfl, hchS _ rfl⟩

/-- The blank choice the Add Choice button appends. -/
def exChoice : StepChoice := { label := "", go_to_step := none, order_index := 0 }

/-- C8 counterexample: make a fresh step a question, add a choice, then
patch the type back to info — the merge patch does not clear choices, so
the resulting authored step has a non-empty choices list while its
instruction_type is not question. -/
theorem authOps_break_choices_invariant :
    (applyAuthOps createdStepDefault
      [.patchType "question", .addChoice exChoice, .patchType "info"]).choices ≠ []
    ∧ (applyAuthOps createdStepDefault
        [.patchType "question", .addChoice exChoice,
          .patchType "info"]).instruction_type ≠ "question" := by
  constructor <;> decide

/-- C8 amended: the invariant (choices non-empty forces question) holds for
every step reached by create, instruction_type patches and choice edits,
provided no patch moves instruction_type away from question while choices
are non-empty; choice edits themselves are only available on question
steps. -/
theorem authOps_preserve_choices_invariant (ops : List AuthOp) (s : Step)
    (hinv : ChoicesInv s) (hsafe : SafeSeq s ops) :
    ChoicesInv (applyAuthOps s ops) := by
  induction ops generalizing s with
  | nil => exact hinv
  | cons op rest ih =>
    obtain ⟨hhead, htail⟩ := hsafe
    refine ih (applyAuthOp s op) ?_ htail
    cases op with
    | patchType t =>
      intro hne
      have hch : (applyAuthOp s (.patchType t)).choices = s.choices := rfl
      have hty : (applyAuthOp s (.patchType t)).instruction_type = t := rfl
      rw [hch] at hne
      rcases hhead with h | h
      · rw [hty]; exact h
      · exact absurd h hne
    | addChoice c =>
      by_cases hq : s.instruction_type = "question"
      · intro _
        simp [applyAuthOp, hq, applyPatch]
      · simpa [applyAuthOp, hq] using hinv
    | removeChoice i =>
      by_cases hq : s.instruction_type = "question"
      · intro _
        simp [applyAuthOp, hq, applyPatch]
      · simpa [applyAuthOp, hq] using hinv

/-- Witness: a fresh step made a question and given one choice satisfies
the invariant. -/
theorem authOps_preserve_choices_invariant_witness :
    ChoicesInv (applyAuthOps createdStepDefault
      [.patchType "question", .addChoice exChoice]) :=
  authOps_preserve_choices_invariant
    [.patchType "question", .addChoice exChoice] createdStepDefault
    (fun h => absurd rfl h) ⟨Or.inl rfl, trivial, trivial⟩

/-- Module layout T1:[s1], T2:[], T3:[s2] for the navigation example. -/
def exTasksBoundary : List Task :=
  [{ id := "t1", title := "T1", steps := some [{ id := "s1" }] },
   { id := "t2", title := "T2", steps := some [] },
   { id := "t3", title := "T3", steps := some [{ id := "s2" }] }]

/-- C7 counterexample: stepping forward from the only step of T1 yields no
navigation because the adjacent task T2 has no steps, although the module
does continue (T3 holds a step) — so none is not reserved for the ends of
the module. -/
theorem goToNeighbor_blocked_by_empty_task :
    goToNeighbor exTasksBoundary 0 0 1 = none
    ∧ ((exTasksBoundary.getD 2 { id := "" }).steps.getD []).length = 1 := by
  constructor <;> decide

/-- C7 amended: from a valid position, neighbor navigation yields the
adjacent step within the task; at a task boundary it crosses into the next
task's first step (resp. the previous task's last step) exactly when that
adjacent task exists and has steps, and yields none otherwise — in
particular at either end of the module. -/
theorem goToNeighbor_spec (tasks : List Task) (tIdx sIdx : Nat) (cur : Task)
    (hcur : tasks[tIdx]? = some cur) (hs : sIdx < (cur.steps.getD []).length) :
    (sIdx + 1 < (cur.steps.getD []).length →
      goToNeighbor tasks tIdx sIdx 1 = some (tIdx, sIdx + 1))
    ∧ (sIdx + 1 = (cur.steps.getD []).length →
        (tasks[tIdx + 1]? = none → goToNeighbor tasks tIdx sIdx 1 = none)
        ∧ ∀ nt, tasks[tIdx + 1]? = some nt →
            (nt.steps.getD [] = [] → goToNeighbor tasks tIdx sIdx 1 = none)
            ∧ (nt.steps.getD [] ≠ [] →
                goToNeighbor tasks tIdx sIdx 1 = some (tIdx + 1, 0)))
    ∧ (0 < sIdx → goToNeighbor tasks tIdx sIdx (-1) = some (tIdx, sIdx - 1))
    ∧ (sIdx = 0 →
        (tIdx = 0 → goToNeighbor tasks tIdx sIdx (-1) = none)
        ∧ (0 < tIdx →
            (tasks[tIdx - 1]? = none → goToNeighbor tasks tIdx sIdx (-1) = none)
            ∧ ∀ pt, tasks[tIdx - 1]? = some pt →
                (pt.steps.getD [] = [] → goToNeighbor tasks tIdx sIdx (-1) = none)
                ∧ (pt.steps.getD [] ≠ [] →
                    goToNeighbor tasks tIdx sIdx (-1) =
                      some (tIdx - 1, (pt.steps.getD []).length - 1)))) := by
  have hlen0 : ¬(cur.steps.getD []).length = 0 := by omega
  refine ⟨?_, ?_, ?_, ?_⟩
  · intro h1
    simp only [goToNeighbor, hcur]
    split_ifs <;>
      first
        | rfl
        | trivial
        | (exfalso; omega)
        | (exact congrArg some (congrArg (Prod.mk tIdx) (by omega)))
  · intro h2
    constructor
    · intro hnone
      simp only [goToNeighbor, hcur, hnone]
      split_ifs <;>
          first
            | rfl
            | trivial
            | (exfalso; omega)
            | (exact congrArg some (congrArg (Prod.mk tIdx) (by omega)))
    · intro nt hnt
      constructor
      · intro hempty
        simp only [goToNeighbor, hcur, hnt]
        have hntlen : (nt.steps.getD []).length = 0 := by simp [hempty]
        split_ifs <;>
          first
            | rfl
            | trivial
            | (exfalso; omega)
            | (exact congrArg some (congrArg (Prod.mk tIdx) (by omega)))
      · intro hne
        simp only [goToNeighbor, hcur, hnt]
        have hntlen : ¬(nt.steps.getD []).length = 0 := by
          simpa [List.length_eq_zero] using hne
        split_ifs <;>
          first
            | rfl
            | trivial
            | (exfalso; omega)
            | (exact congrArg some (congrArg (Prod.mk tIdx) (by omega)))
  · intro h0
    simp only [goToNeighbor, hcur]
    split_ifs <;>
      first
        | rfl
        | trivial
        | (exfalso; omega)
        | (exact congrArg some (congrArg (Prod.mk tIdx) (by omega)))
  · intro h0
    constructor
    · intro ht0
      subst ht0
      simp only [goToNeighbor, hcur]
      split_ifs <;>
          first
            | rfl
            | trivial
            | (exfalso; omega)
            | (exact congrArg some (congrArg (Prod.mk tIdx) (by omega)))
    · intro htpos
      have ht0 : ¬tIdx = 0 := by omega
      constructor
      · intro hnone
        simp only [goToNeighbor, hcur, hnone]
        split_ifs <;>
          first
            | rfl
            | trivial
            | (exfalso; omega)
            | (exact congrArg some (congrArg (Prod.mk tIdx) (by omega)))
      · intro pt hpt
        constructor
        · intro hempty
          simp only [goToNeighbor, hcur, hpt]
          have hptlen : (pt.steps.getD []).length = 0 := by simp [hempty]
          split_ifs <;>
          first
            | rfl
            | trivial
            | (exfalso; omega)
            | (exact congrArg some (congrArg (Prod.mk tIdx) (by omega)))
        · intro hne
          simp only [goToNeighbor, hcur, hpt]
          have hptlen : ¬(pt.steps.getD []).length = 0 := by
            simpa [List.length_eq_zero] using hne
          split_ifs <;>
          first
            | rfl
            | trivial
            | (exfalso; omega)
            | (exact congrArg some (congrArg (Prod.mk tIdx) (by omega)))

/-- Two-task layout for the navigation witness: T1 has two steps, T2 one. -/
def navTask1 : Task :=
  { id := "t1", title := "T1", steps := some [{ id := "s1" }, { id := "s2" }] }

/-- Second task of the navigation witness. -/
def navTask2 : Task := { id := "t2", title := "T2", steps := some [{ id := "s3" }] }

/-- Witness: forward within T1, forward across the T1/T2 boundary, and the
refusal to step back from the very first step of the module. -/
theorem goToNeighbor_spec_witness :
    goToNeighbor [navTask1, navTask2] 0 0 1 = some (0, 1)
    ∧ goToNeighbor [navTask1, navTask2] 0 1 1 = some (1, 0)
    ∧ goToNeighbor [navTask1, navTask2] 0 0 (-1) = none := by
  refine ⟨?_, ?_, ?_⟩
  · exact (goToNeighbor_spec [navTask1, navTask2] 0 0 navTask1 rfl (by decide)).1
      (by decide)
  · exact (((goToNeighbor_spec [navTask1, navTask2] 0 1 navTask1 rfl
      (by decide)).2.1 (by decide)).2 navTask2 rfl).2 (by decide)
  · exact ((goToNeighbor_spec [navTask1, navTask2] 0 0 navTask1 rfl
      (by decide)).2.2.2 rfl).1 rfl

theorem renumberFrom_map_id (l : List StepRec) (m : Int) :
    (renumberFrom m l).map (fun s => s.id) = l.map (fun s => s.id) := by
  induction l generalizing m with
  | nil => rfl
  | cons x xs ih => simp [renumberFrom, ih]

theorem denseFrom_renumberFrom (l : List StepRec) (m : Int) :
    denseFrom m (renumberFrom m l) = true := by
  induction l generalizing m with
  | nil => rfl
  | cons x xs ih => simp [renumberFrom, denseFrom, ih]

theorem isDense_renumberFrom (l : List StepRec) (m : Int) :
    isDense (renumberFrom m l) = true := by
  cases l with
  | nil => rfl
  | cons x xs =>
    have h := denseFrom_renumberFrom (x :: xs) m
    simpa [isDense, renumberFrom] using h

theorem minOrder_renumberFrom (l : List StepRec) (m : Int) (h : l ≠ []) :
    minOrder (renumberFrom m l) = m := by
  induction l generalizing m with
  | nil => exact absurd rfl h
  | cons x xs ih =>
    cases xs with
    | nil => rfl
    | cons y ys =>
      have htail := ih (m + 1) (by simp)
      calc minOrder (renumberFrom m (x :: y :: ys))
          = min m (minOrder ({ id := y.id, order_index := m + 1 }
              :: renumberFrom (m + 1 + 1) ys)) := rfl
        _ = min m (m + 1) := by
            rw [show ({ id := y.id, order_index := m + 1 }
              :: renumberFrom (m + 1 + 1) ys) = renumberFrom (m + 1) (y :: ys) from rfl,
              htail]
        _ = m := by omega

theorem denseFrom_le_maxOrder (x : StepRec) (xs : List StepRec) (m : Int)
    (h : denseFrom m (x :: xs) = true) : m ≤ maxOrder (x :: xs) := by
  cases xs with
  | nil =>
    simp only [denseFrom, Bool.and_eq_true, beq_iff_eq] at h
    simp [maxOrder, h.1]
  | cons y ys =>
    simp only [denseFrom, Bool.and_eq_true, beq_iff_eq] at h
    have : m ≤ x.order_index := le_of_eq h.1.symm
    calc m ≤ x.order_index := this
    _ ≤ max x.order_index (maxOrder (y :: ys)) := le_max_left _ _
    _ = maxOrder (x :: y :: ys) := rfl

theorem denseFrom_append_max (xs : List StepRec) (x : StepRec) (m : Int)
    (i : String) (h : denseFrom m (x :: xs) = true) :
    denseFrom m ((x :: xs) ++ [⟨i, maxOrder (x :: xs) + 1⟩]) = true := by
  induction xs generalizing x m with
  | nil =>
    rw [show denseFrom m [x] = (x.order_index == m && denseFrom (m + 1) []) from rfl,
      Bool.and_eq_true, beq_iff_eq] at h
    simp [denseFrom, maxOrder, h.1]
  | cons y ys ih =>
    rw [show denseFrom m (x :: y :: ys)
        = (x.order_index == m && denseFrom (m + 1) (y :: ys)) from rfl,
      Bool.and_eq_true, beq_iff_eq] at h
    obtain ⟨hx, hrest⟩ := h
    have hle : m + 1 ≤ maxOrder (y :: ys) := denseFrom_le_maxOrder y ys (m + 1) hrest
    have hmax : maxOrder (x :: y :: ys) = maxOrder (y :: ys) := by
      show max x.order_index (maxOrder (y :: ys)) = maxOrder (y :: ys)
      exact max_eq_right (by omega)
    rw [hmax]
    have happ := ih y (m + 1) hrest
    rw [show ((x :: y :: ys) ++ [(⟨i, maxOrder (y :: ys) + 1⟩ : StepRec)])
        = x :: ((y :: ys) ++ [⟨i, maxOrder (y :: ys) + 1⟩]) from rfl]
    rw [show denseFrom m (x :: ((y :: ys) ++ [(⟨i, maxOrder (y :: ys) + 1⟩ : StepRec)]))
        = (x.order_index == m
            && denseFrom (m + 1) ((y :: ys) ++ [⟨i, maxOrder (y :: ys) + 1⟩])) from rfl]
    rw [Bool.and_eq_true, beq_iff_eq]
    exact ⟨hx, happ⟩

theorem isDense_createStepOrdered (i : String) (s : List StepRec)
    (h : isDense s = true) : isDense (createStepOrdered i s) = true := by
  cases s with
  | nil => rfl
  | cons x xs =>
    have h2 : denseFrom x.order_index (x :: xs) = true := h
    have := denseFrom_append_max xs x x.order_index i h2
    simpa [createStepOrdered, isDense] using this

theorem isDense_deleteStep (i : String) (s : List StepRec) :
    isDense (deleteStep i s) = true :=
  isDense_renumberFrom _ _

/-- C3: starting from a dense sibling list, any sequence of creates and
deletes keeps the order_index values a dense ascending run with no gaps or
duplicates; a delete keeps the surviving siblings in their relative order
and, when any survive, keeps the original minimum as the starting index. -/
theorem stepOps_keep_density (ops : List StepOp) (steps : List StepRec)
    (h : isDense steps = true) :
    isDense (applyStepOps ops steps) = true
    ∧ (∀ i, (deleteStep i steps).map (fun s => s.id)
        = (steps.filter (fun s => s.id != i)).map (fun s => s.id))
    ∧ (∀ i, steps.filter (fun s => s.id != i) ≠ [] →
        minOrder (deleteStep i steps) = minOrder steps) := by
  refine ⟨?_, ?_, ?_⟩
  · induction ops generalizing steps with
    | nil => exact h
    | cons op rest ih =>
      cases op with
      | create i => exact ih (createStepOrdered i steps) (isDense_createStepOrdered i steps h)
      | del i => exact ih (deleteStep i steps) (isDense_deleteStep i steps)
  · intro i
    exact renumberFrom_map_id _ _
  · intro i hne
    exact minOrder_renumberFrom _ _ hne

/-- The spec example task: steps at order 1,2,3,4. -/
def renumberExample : List StepRec :=
  [⟨"a", 1⟩, ⟨"b", 2⟩, ⟨"c", 3⟩, ⟨"d", 4⟩]

/-- Witness: deleting the step at order 2 from [1,2,3,4] leaves a dense run
again, keeps a,c,d in order, and keeps the minimum 1; in fact the result is
exactly a@1, c@2, d@3. -/
theorem stepOps_keep_density_witness :
    isDense (applyStepOps [.del "b"] renumberExample) = true
    ∧ (deleteStep "b" renumberExample).map (fun s => s.id)
        = (renumberExample.filter (fun s => s.id != "b")).map (fun s => s.id)
    ∧ minOrder (deleteStep "b" renumberExample) = minOrder renumberExample
    ∧ deleteStep "b" renumberExample = [⟨"a", 1⟩, ⟨"c", 2⟩, ⟨"d", 3⟩] := by
  obtain ⟨h1, h2, h3⟩ := stepOps_keep_density [.del "b"] renumberExample (by decide)
  exact ⟨h1, h2 "b", h3 "b" (by decide), by decide⟩

/-- C6: the step created through addStepToTask (no title, no explicit
order) is appended with order_index = max sibling order_index + 1, carries
instruction_type info, and every other content field defaults to
empty/false/zero; the client body itself fixes instruction_type info and an
empty description. -/
theorem createStep_appends (siblings : List StepRec) (taskId newId : String) :
    (clientCreateStepBody taskId none none).instruction_type = "info"
    ∧ (clientCreateStepBody taskId none none).description = ""
    ∧ (clientCreateStepBody taskId none none).order_index = 0
    ∧ (backendCreateStep siblings newId (clientCreateStepBody taskId none none)).order_index
        = maxOrder siblings + 1
    ∧ (backendCreateStep siblings newId (clientCreateStepBody taskId none none)).instruction_type
        = "info"
    ∧ (backendCreateStep siblings newId (clientCreateStepBody taskId none none)).title = ""
    ∧ (backendCreateStep siblings newId (clientCreateStepBody taskId none none)).description = ""
    ∧ (backendCreateStep siblings newId (clientCreateStepBody taskId none none)).choices = []
    ∧ (backendCreateStep siblings newId (clientCreateStepBody taskId none none)).media_type = none
    ∧ (backendCreateStep siblings newId (clientCreateStepBody taskId none none)).media_asset = none
    ∧ (backendCreateStep siblings newId (clientCreateStepBody taskId none none)).model_asset = none
    ∧ (backendCreateStep siblings newId (clientCreateStepBody taskId none none)).model_animation = ""
    ∧ (backendCreateStep siblings newId (clientCreateStepBody taskId none none)).model_scale = 0
    ∧ (backendCreateStep siblings newId (clientCreateStepBody taskId none none)).model_animation_loop
        = false
    ∧ (backendCreateStep siblings newId
        (clientCreateStepBody taskId none none)).interaction_required_action = ""
    ∧ (backendCreateStep siblings newId
        (clientCreateStepBody taskId none none)).interaction_attempts_allowed = 0
    ∧ (backendCreateStep siblings newId (clientCreateStepBody taskId none none)).completion_type = ""
    ∧ (backendCreateStep siblings newId (clientCreateStepBody taskId none none)).completion_value
        = "" :=
  ⟨rfl, rfl, rfl, rfl, rfl, rfl, rfl, rfl, rfl, rfl, rfl, rfl, rfl, rfl, rfl, rfl, rfl, rfl⟩

end CMS
